import Mathlib

/-
Verification development for pkg/cache/groupcache.go (Thanos groupcache
caching bucket layer).

The file shallowly embeds the three pieces of logic in that file:

  * the loader callback registered as a galaxycache GetterFunc inside
    NewGroupcacheWithConfig (key dispatch over the five cache-key verbs,
    policy lookup, backend calls, payload serialization, TTL stamping);
  * the DNS peer-membership refresh goroutine started by
    NewGroupcacheWithConfig;
  * Groupcache.Store and Groupcache.Fetch.

External collaborators (objstore.Bucket, the galaxycache engine,
encoding/json, the DNS provider) are modelled as oracles: functions the
embedding quantifies over.  Machine integers (time.Duration, int64 byte
offsets) are modelled as Int; byte slices as lists of naturals.  Backend
calls performed by the loader are recorded in an explicit trace so that
claims about which calls happen (and in which arguments) are statable.
-/

/-- Byte sequences: Go byte slices modelled as lists of naturals. -/
abbrev Bytes := List Nat

/-- UTF-8 irrelevant here (ASCII tokens only): bytes of a string as the
codepoints of its characters. -/
def strBytes (s : String) : Bytes := s.data.map Char.toNat

/-- Modelled from the spec: the five verb tokens of the cache-key grammar
(spec section 6, key encoding).  The constants live in
pkg/store/cache/cachekey (VerbType, a string-backed type), which is outside
the analysed sources; the values are the upstream constants.  The claims
below depend only on their distinctness and on VerbType admitting values
outside this set. -/
def AttributesVerb : String := "attrs"

/-- Modelled from the spec: see AttributesVerb. -/
def IterVerb : String := "iter"

/-- Modelled from the spec: see AttributesVerb. -/
def ContentVerb : String := "content"

/-- Modelled from the spec: see AttributesVerb. -/
def ExistsVerb : String := "exists"

/-- Modelled from the spec: see AttributesVerb. -/
def SubrangeVerb : String := "subrange"

/-- Decoded cache key (cachekey.BucketCacheKey): verb, object name and the
byte range used by the subrange verb.  Go field End is rendered «end». -/
structure BucketCacheKey where
  verb : String
  name : String
  start : Int
  «end» : Int

/-- Result of objstore Attributes (objstore.ObjectAttributes): size and
last-modification time; contents are opaque to the loader, which only
passes them to the JSON marshaller. -/
structure ObjectAttributes where
  size : Int
  lastModified : Int

/-- Policy entry returned by CachingBucketConfig.FindAttributesConfig; the
loader reads only its TTL field. -/
structure AttributesConfig where
  ttl : Int

/-- Policy entry returned by CachingBucketConfig.FindIterConfig. -/
structure IterConfig where
  ttl : Int

/-- Policy entry returned by CachingBucketConfig.FindGetConfig; the loader
reads only ContentTTL. -/
structure GetConfig where
  contentTTL : Int

/-- Policy entry returned by CachingBucketConfig.FindExistConfig: one TTL
for an existing object and one for an absent one. -/
structure ExistsConfig where
  existsTTL : Int
  doesntExistTTL : Int

/-- Policy entry returned by CachingBucketConfig.FindGetRangeConfig; the
loader reads only SubrangeTTL. -/
structure SubrangeConfig where
  subrangeTTL : Int

/-- Modelled from the spec: the TTL policy routing table (spec section 4.2,
TTLPolicyResolver).  Its implementation (caching_bucket_config.go) is
outside the analysed sources; groupcache.go only calls the five Find*
lookups and checks the result against nil, so each lookup is modelled as an
abstract map from target name to an optional policy entry. -/
structure CachingBucketConfig where
  findAttributesConfig : String → Option AttributesConfig
  findIterConfig : String → Option IterConfig
  findGetConfig : String → Option GetConfig
  findExistConfig : String → Option ExistsConfig
  findGetRangeConfig : String → Option SubrangeConfig

/-- Object-storage backend (objstore.Bucket), an external collaborator,
modelled as oracles.  Get and GetRange return a stream which the loader
reads to completion with ioutil.ReadAll; the outer Except is the failure of
the call itself, the inner Except the failure of reading the stream, whose
ok value is the complete streamed content. -/
structure Bucket (ε : Type) where
  attributes : String → Except ε ObjectAttributes
  iter : String → Except ε (List String)
  get : String → Except ε (Except ε Bytes)
  «exists» : String → Except ε Bool
  getRange : String → Int → Int → Except ε (Except ε Bytes)

/-- Serialization oracles for encoding/json.Marshal as used by the loader
(on ObjectAttributes and on a list of names). -/
structure JsonCodec (ε : Type) where
  marshalAttrs : ObjectAttributes → Except ε Bytes
  marshalList : List String → Except ε Bytes

/-- Trace entry: one backend call performed by the loader, with its
arguments. -/
inductive BackendCall where
  | attributes (name : String)
  | iter (name : String)
  | get (name : String)
  | existsCall (name : String)
  | getRange (name : String) (off len : Int)
  deriving DecidableEq

/-- Outcome of one GetterFunc invocation on an already-parsed key.
written: dest.UnmarshalBinary was called with the payload and absolute
expiry (galaxycache ByteCodec never fails, so the returned nil is success);
empty: the switch fell through without touching dest and returned nil;
failed: an error was returned; panicked: the unconfigured-path panic
fired. -/
inductive LoadOutcome (ε : Type) where
  | written (payload : Bytes) (expiresAt : Int)
  | empty
  | failed (e : ε)
  | panicked (msg : String)

/-- Message of the unconfigured-path panic in groupcache.go. -/
def unconfiguredMsg : String := "caching bucket layer must not call on unconfigured paths"

/-- Serialization of a boolean by strconv.FormatBool followed by the
[]byte conversion in the ExistsVerb branch. -/
def formatBool (b : Bool) : Bytes := strBytes (if b then "true" else "false")

variable {ε : Type}

/-- Body of the galaxycache GetterFunc in NewGroupcacheWithConfig after
ParseBucketCacheKey succeeded: the switch on parsedData.Verb.  now is the
value of time.Now() at expiry stamping.  The second component is the trace
of backend calls performed. -/
def loadParsed (cfg : CachingBucketConfig) (bucket : Bucket ε) (codec : JsonCodec ε)
    (now : Int) (parsedData : BucketCacheKey) : LoadOutcome ε × List BackendCall :=
  if parsedData.verb = AttributesVerb then
    match cfg.findAttributesConfig parsedData.name with
    | none => (.panicked unconfiguredMsg, [])
    | some attrCfg =>
      match bucket.attributes parsedData.name with
      | .error e => (.failed e, [.attributes parsedData.name])
      | .ok attrs =>
        match codec.marshalAttrs attrs with
        | .error e => (.failed e, [.attributes parsedData.name])
        | .ok finalAttrs => (.written finalAttrs (now + attrCfg.ttl), [.attributes parsedData.name])
  else if parsedData.verb = IterVerb then
    match cfg.findIterConfig parsedData.name with
    | none => (.panicked unconfiguredMsg, [])
    | some iterCfg =>
      match bucket.iter parsedData.name with
      | .error e => (.failed e, [.iter parsedData.name])
      | .ok names =>
        let list := names.foldl (fun acc s => acc ++ [s]) []
        match codec.marshalList list with
        | .error e => (.failed e, [.iter parsedData.name])
        | .ok encodedList => (.written encodedList (now + iterCfg.ttl), [.iter parsedData.name])
  else if parsedData.verb = ContentVerb then
    match cfg.findGetConfig parsedData.name with
    | none => (.panicked unconfiguredMsg, [])
    | some contentCfg =>
      match bucket.get parsedData.name with
      | .error e => (.failed e, [.get parsedData.name])
      | .ok readAll =>
        match readAll with
        | .error e => (.failed e, [.get parsedData.name])
        | .ok b => (.written b (now + contentCfg.contentTTL), [.get parsedData.name])
  else if parsedData.verb = ExistsVerb then
    match cfg.findExistConfig parsedData.name with
    | none => (.panicked unconfiguredMsg, [])
    | some existsCfg =>
      match bucket.exists parsedData.name with
      | .error e => (.failed e, [.existsCall parsedData.name])
      | .ok ex =>
        if ex then
          (.written (formatBool ex) (now + existsCfg.existsTTL), [.existsCall parsedData.name])
        else
          (.written (formatBool ex) (now + existsCfg.doesntExistTTL), [.existsCall parsedData.name])
  else if parsedData.verb = SubrangeVerb then
    match cfg.findGetRangeConfig parsedData.name with
    | none => (.panicked unconfiguredMsg, [])
    | some subrangeCfg =>
      match bucket.getRange parsedData.name parsedData.start (parsedData.«end» - parsedData.start) with
      | .error e => (.failed e, [.getRange parsedData.name parsedData.start (parsedData.«end» - parsedData.start)])
      | .ok readAll =>
        match readAll with
        | .error e => (.failed e, [.getRange parsedData.name parsedData.start (parsedData.«end» - parsedData.start)])
        | .ok b => (.written b (now + subrangeCfg.subrangeTTL), [.getRange parsedData.name parsedData.start (parsedData.«end» - parsedData.start)])
  else
    (.empty, [])

/-- Outcome of one galaxy.Get plus codec.MarshalBinary inside
Groupcache.Fetch, modelled as an oracle per key (the galaxycache engine is
an external collaborator): the Get call can fail, retrieving the bytes from
the codec can fail, or bytes are retrieved. -/
inductive GetOutcome (ε : Type) where
  | getFailed (e : ε)
  | marshalFailed (e : ε)
  | retrieved (b : Bytes)

/-- Go map from keys to byte slices, as returned by Groupcache.Fetch. -/
abbrev FetchMap := String → Option Bytes

/-- One iteration of the loop in Groupcache.Fetch for key k: a failed Get
or a failed MarshalBinary logs and continues, retrieved data is stored
under k only when non-empty. -/
def fetchStep (galaxyGet : String → GetOutcome ε) (data : FetchMap) (k : String) : FetchMap :=
  match galaxyGet k with
  | .getFailed _ => data
  | .marshalFailed _ => data
  | .retrieved b =>
    if 0 < b.length then (fun k2 => if k2 = k then some b else data k2) else data

/-- Groupcache.Fetch: fold the per-key loop over the requested keys,
starting from the empty map. -/
def fetch (galaxyGet : String → GetOutcome ε) (keys : List String) : FetchMap :=
  keys.foldl (fetchStep galaxyGet) (fun _ => none)

/-- Observable state of a Groupcache instance: the contents of the galaxy
cache and the membership view of the universe. -/
structure GroupcacheState where
  cacheContents : FetchMap
  publishedPeers : List String

/-- Groupcache.Store: the body is empty (a no-op; the cache is filled
during fetching), so the state is returned unchanged and no backend call is
performed. -/
def groupcacheStore (c : GroupcacheState) (data : List (String × Bytes)) (ttl : Int) :
    GroupcacheState × List BackendCall :=
  (c, [])

/-- Observable effect of one tick of the DNS refresh goroutine, as decided
by the external oracles: either dnsGroupcacheProvider.Resolve failed
(carrying the provider's internal resolved set afterwards, which the dns
package, outside the analysed sources, does not specify), or it succeeded
with the resolved addresses and universe.Set on them either succeeded or
failed. -/
inductive TickOutcome where
  | resolveFailed (providerAfter : List String)
  | resolved (addrs : List String) (setPeersOk : Bool)

/-- State touched by the refresh goroutine: the DNS provider's resolved
address set and the universe's membership view (the published peer set). -/
structure RefreshState where
  providerAddrs : List String
  publishedPeers : List String

/-- One iteration of the refresh loop in NewGroupcacheWithConfig: on
Resolve failure only log (universe.Set is not called, the membership view
is untouched); on success publish provider.Addresses() via universe.Set,
which on failure leaves the membership view as it was (galaxycache applies
a peer set atomically; spec section 7, PublishError). -/
def refreshTick (st : RefreshState) (t : TickOutcome) : RefreshState :=
  match t with
  | .resolveFailed providerAfter => { st with providerAddrs := providerAfter }
  | .resolved addrs ok =>
    let st2 : RefreshState := { st with providerAddrs := addrs }
    if ok then { st2 with publishedPeers := addrs } else st2

/-- Finite prefix of the infinite refresh loop: fold the tick body over a
sequence of tick outcomes. -/
def refreshRun (st : RefreshState) (ts : List TickOutcome) : RefreshState :=
  ts.foldl refreshTick st

/-- TTLs the configuration offers for a given target name: the TTL fields
of each matched policy entry.  Helper for stating that every stamped expiry
uses one of the configured TTLs. -/
def ttlMenu (cfg : CachingBucketConfig) (name : String) : List Int :=
  (match cfg.findAttributesConfig name with | some c => [c.ttl] | none => []) ++
  (match cfg.findIterConfig name with | some c => [c.ttl] | none => []) ++
  (match cfg.findGetConfig name with | some c => [c.contentTTL] | none => []) ++
  (match cfg.findExistConfig name with | some c => [c.existsTTL, c.doesntExistTTL] | none => []) ++
  (match cfg.findGetRangeConfig name with | some c => [c.subrangeTTL] | none => [])

/-- Every TTL the configuration can resolve is strictly positive. -/
def allTTLsPos (cfg : CachingBucketConfig) : Prop :=
  ∀ name d, d ∈ ttlMenu cfg name → 0 < d

/-- The duration d is the TTL the policy resolves for this key's own
operation: the verb picks the policy lookup, the matched entry supplies
the TTL, and for the exists verb the backend's boolean selects between the
entry's two TTLs — exactly the TTL the corresponding switch branch stamps,
never another verb's. -/
def resolvedTTLFor (cfg : CachingBucketConfig) (bucket : Bucket ε)
    (k : BucketCacheKey) (d : Int) : Prop :=
  (k.verb = AttributesVerb ∧ ∃ c, cfg.findAttributesConfig k.name = some c ∧ d = c.ttl) ∨
  (k.verb = IterVerb ∧ ∃ c, cfg.findIterConfig k.name = some c ∧ d = c.ttl) ∨
  (k.verb = ContentVerb ∧ ∃ c, cfg.findGetConfig k.name = some c ∧ d = c.contentTTL) ∨
  (k.verb = ExistsVerb ∧ ∃ c b, cfg.findExistConfig k.name = some c ∧
    bucket.exists k.name = .ok b ∧ d = if b then c.existsTTL else c.doesntExistTTL) ∨
  (k.verb = SubrangeVerb ∧ ∃ c, cfg.findGetRangeConfig k.name = some c ∧ d = c.subrangeTTL)

/- ------------------------------------------------------------------ -/
/- Theorems                                                            -/
/- ------------------------------------------------------------------ -/

/-- Ticks do not read the membership view except to keep it: runs started
from states with the same published peers publish the same peers. -/
lemma refreshRun_publishedPeers_congr (ts : List TickOutcome) :
    ∀ st1 st2 : RefreshState, st1.publishedPeers = st2.publishedPeers →
      (refreshRun st1 ts).publishedPeers = (refreshRun st2 ts).publishedPeers := by
  induction ts with
  | nil => intro st1 st2 h; simpa [refreshRun] using h
  | cons t ts ih =>
    intro st1 st2 h
    have hstep : (refreshTick st1 t).publishedPeers = (refreshTick st2 t).publishedPeers := by
      cases t with
      | resolveFailed providerAfter => simpa [refreshTick] using h
      | resolved addrs ok => cases ok <;> simpa [refreshTick] using h
    simpa [refreshRun] using ih (refreshTick st1 t) (refreshTick st2 t) hstep

/-- C1: a tick whose DNS resolution fails leaves the published peer set
exactly as after the previous ticks, and the loop goes on: inserting a
failed-resolution tick anywhere in a run never changes the membership view
any later tick publishes. -/
theorem resolve_failure_preserves_membership (st : RefreshState)
    (pre post : List TickOutcome) (a : List String) :
    (refreshRun st (pre ++ [TickOutcome.resolveFailed a])).publishedPeers
        = (refreshRun st pre).publishedPeers ∧
    (refreshRun st (pre ++ TickOutcome.resolveFailed a :: post)).publishedPeers
        = (refreshRun st (pre ++ post)).publishedPeers := by
  constructor
  · simp [refreshRun, List.foldl_append, refreshTick]
  · have h1 : refreshRun st (pre ++ TickOutcome.resolveFailed a :: post)
        = refreshRun (refreshTick (refreshRun st pre) (TickOutcome.resolveFailed a)) post := by
      simp [refreshRun, List.foldl_append]
    have h2 : refreshRun st (pre ++ post) = refreshRun (refreshRun st pre) post := by
      simp [refreshRun, List.foldl_append]
    rw [h1, h2]
    exact refreshRun_publishedPeers_congr post _ _ (by simp [refreshTick])

/-- C10: Groupcache.Store is a no-op for every input: the state is
unchanged and no backend call is performed. -/
theorem store_is_noop (c : GroupcacheState) (data : List (String × Bytes)) (ttl : Int) :
    groupcacheStore c data ttl = (c, []) := rfl

/-- Dispatch lemma: on an AttributesVerb key the loader runs exactly the
attributes branch of the switch. -/
lemma loadParsed_attributes_branch (cfg : CachingBucketConfig) (bucket : Bucket ε)
    (codec : JsonCodec ε) (now : Int) (k : BucketCacheKey)
    (hverb : k.verb = AttributesVerb) :
    loadParsed cfg bucket codec now k =
      match cfg.findAttributesConfig k.name with
      | none => (.panicked unconfiguredMsg, [])
      | some attrCfg =>
        match bucket.attributes k.name with
        | .error e => (.failed e, [.attributes k.name])
        | .ok attrs =>
          match codec.marshalAttrs attrs with
          | .error e => (.failed e, [.attributes k.name])
          | .ok finalAttrs => (.written finalAttrs (now + attrCfg.ttl), [.attributes k.name]) := by
  unfold loadParsed
  rw [hverb, if_pos rfl]

/-- Dispatch lemma: on an IterVerb key the loader runs exactly the iter
branch of the switch. -/
lemma loadParsed_iter_branch (cfg : CachingBucketConfig) (bucket : Bucket ε)
    (codec : JsonCodec ε) (now : Int) (k : BucketCacheKey)
    (hverb : k.verb = IterVerb) :
    loadParsed cfg bucket codec now k =
      match cfg.findIterConfig k.name with
      | none => (.panicked unconfiguredMsg, [])
      | some iterCfg =>
        match bucket.iter k.name with
        | .error e => (.failed e, [.iter k.name])
        | .ok names =>
          match codec.marshalList (names.foldl (fun acc s => acc ++ [s]) []) with
          | .error e => (.failed e, [.iter k.name])
          | .ok encodedList => (.written encodedList (now + iterCfg.ttl), [.iter k.name]) := by
  unfold loadParsed
  rw [hverb, if_neg (by decide), if_pos rfl]

/-- Dispatch lemma: on a ContentVerb key the loader runs exactly the
content branch of the switch. -/
lemma loadParsed_content_branch (cfg : CachingBucketConfig) (bucket : Bucket ε)
    (codec : JsonCodec ε) (now : Int) (k : BucketCacheKey)
    (hverb : k.verb = ContentVerb) :
    loadParsed cfg bucket codec now k =
      match cfg.findGetConfig k.name with
      | none => (.panicked unconfiguredMsg, [])
      | some contentCfg =>
        match bucket.get k.name with
        | .error e => (.failed e, [.get k.name])
        | .ok readAll =>
          match readAll with
          | .error e => (.failed e, [.get k.name])
          | .ok b => (.written b (now + contentCfg.contentTTL), [.get k.name]) := by
  unfold loadParsed
  rw [hverb, if_neg (by decide), if_neg (by decide), if_pos rfl]

/-- Dispatch lemma: on an ExistsVerb key the loader runs exactly the exists
branch of the switch. -/
lemma loadParsed_exists_branch (cfg : CachingBucketConfig) (bucket : Bucket ε)
    (codec : JsonCodec ε) (now : Int) (k : BucketCacheKey)
    (hverb : k.verb = ExistsVerb) :
    loadParsed cfg bucket codec now k =
      match cfg.findExistConfig k.name with
      | none => (.panicked unconfiguredMsg, [])
      | some existsCfg =>
        match bucket.exists k.name with
        | .error e => (.failed e, [.existsCall k.name])
        | .ok ex =>
          if ex then
            (.written (formatBool ex) (now + existsCfg.existsTTL), [.existsCall k.name])
          else
            (.written (formatBool ex) (now + existsCfg.doesntExistTTL), [.existsCall k.name]) := by
  unfold loadParsed
  rw [hverb, if_neg (by decide), if_neg (by decide), if_neg (by decide), if_pos rfl]

/-- Dispatch lemma: on a SubrangeVerb key the loader runs exactly the
subrange branch of the switch. -/
lemma loadParsed_subrange_branch (cfg : CachingBucketConfig) (bucket : Bucket ε)
    (codec : JsonCodec ε) (now : Int) (k : BucketCacheKey)
    (hverb : k.verb = SubrangeVerb) :
    loadParsed cfg bucket codec now k =
      match cfg.findGetRangeConfig k.name with
      | none => (.panicked unconfiguredMsg, [])
      | some subrangeCfg =>
        match bucket.getRange k.name k.start (k.«end» - k.start) with
        | .error e => (.failed e, [.getRange k.name k.start (k.«end» - k.start)])
        | .ok readAll =>
          match readAll with
          | .error e => (.failed e, [.getRange k.name k.start (k.«end» - k.start)])
          | .ok b => (.written b (now + subrangeCfg.subrangeTTL), [.getRange k.name k.start (k.«end» - k.start)]) := by
  unfold loadParsed
  rw [hverb, if_neg (by decide), if_neg (by decide), if_neg (by decide), if_neg (by decide), if_pos rfl]

/-- Dispatch lemma: a key whose verb matches none of the five cases falls
through the switch, touches nothing and returns nil. -/
lemma loadParsed_no_verb_match (cfg : CachingBucketConfig) (bucket : Bucket ε)
    (codec : JsonCodec ε) (now : Int) (k : BucketCacheKey)
    (h1 : k.verb ≠ AttributesVerb) (h2 : k.verb ≠ IterVerb) (h3 : k.verb ≠ ContentVerb)
    (h4 : k.verb ≠ ExistsVerb) (h5 : k.verb ≠ SubrangeVerb) :
    loadParsed cfg bucket codec now k = (.empty, []) := by
  unfold loadParsed
  rw [if_neg h1, if_neg h2, if_neg h3, if_neg h4, if_neg h5]

/-- Appending one element at a time from the left builds exactly the input
list: the iter-callback accumulation preserves the backend's order. -/
lemma foldl_append_singleton (names : List String) :
    ∀ acc : List String, names.foldl (fun a s => a ++ [s]) acc = acc ++ names := by
  induction names with
  | nil => intro acc; simp
  | cons n ns ih => intro acc; rw [List.foldl_cons, ih]; simp

/- Concrete fixtures used by the witness theorems. -/

/-- Fixture: attributes policy entry with a 60s TTL. -/
def attrsCfg1 : AttributesConfig := ⟨60⟩

/-- Fixture: iter policy entry with a 120s TTL. -/
def iterCfg1 : IterConfig := ⟨120⟩

/-- Fixture: get policy entry with a 300s content TTL. -/
def getCfg1 : GetConfig := ⟨300⟩

/-- Fixture: exists policy entry, 600s when present and 30s when absent. -/
def existsCfg1 : ExistsConfig := ⟨600, 30⟩

/-- Fixture: subrange policy entry with a 240s TTL. -/
def subrangeCfg1 : SubrangeConfig := ⟨240⟩

/-- Fixture: configuration matching every name for every verb. -/
def cfgAll : CachingBucketConfig :=
  ⟨fun _ => some attrsCfg1, fun _ => some iterCfg1, fun _ => some getCfg1,
   fun _ => some existsCfg1, fun _ => some subrangeCfg1⟩

/-- Fixture: configuration matching no name for any verb. -/
def cfgNone : CachingBucketConfig :=
  ⟨fun _ => none, fun _ => none, fun _ => none, fun _ => none, fun _ => none⟩

/-- Fixture: an unsorted enumeration, so order preservation is visible. -/
def names1 : List String := ["b", "a", "c"]

/-- Fixture: a backend on which every operation succeeds. -/
def bucketA : Bucket Unit :=
  ⟨fun _ => .ok ⟨128, 7⟩, fun _ => .ok names1, fun _ => .ok (.ok [1, 2, 3]),
   fun _ => .ok true, fun _ _ _ => .ok (.ok [9, 9])⟩

/-- Fixture: a backend on which every operation fails. -/
def bucketFail : Bucket Unit :=
  ⟨fun _ => .error (), fun _ => .error (), fun _ => .error (),
   fun _ => .error (), fun _ _ _ => .error ()⟩

/-- Fixture: a trivially succeeding serialization oracle. -/
def codecU : JsonCodec Unit := ⟨fun a => .ok [a.size.toNat], fun l => .ok [l.length]⟩

/-- Fixture: an attributes key. -/
def keyAttrs : BucketCacheKey := ⟨AttributesVerb, "obj", 0, 0⟩

/-- Fixture: an iter key. -/
def keyIter : BucketCacheKey := ⟨IterVerb, "dir", 0, 0⟩

/-- Fixture: an exists key. -/
def keyExists : BucketCacheKey := ⟨ExistsVerb, "obj", 0, 0⟩

/-- Fixture: a subrange key for bytes 100 to 200. -/
def keySubrange : BucketCacheKey := ⟨SubrangeVerb, "chunk.dat", 100, 200⟩

/-- Fixture: a key whose verb is none of the five handled ones. -/
def keyBogus : BucketCacheKey := ⟨"frobnicate", "obj", 0, 0⟩

/-- C9: a key that parses but whose verb is none of the five handled
operation kinds falls out of the switch: the loader callback returns
success (nil error) without writing any payload or expiry to the
destination codec and performs no backend call. -/
theorem unknown_verb_yields_empty_success (cfg : CachingBucketConfig) (bucket : Bucket ε)
    (codec : JsonCodec ε) (now : Int) (k : BucketCacheKey)
    (h1 : k.verb ≠ AttributesVerb) (h2 : k.verb ≠ IterVerb) (h3 : k.verb ≠ ContentVerb)
    (h4 : k.verb ≠ ExistsVerb) (h5 : k.verb ≠ SubrangeVerb) :
    loadParsed cfg bucket codec now k = (.empty, []) :=
  loadParsed_no_verb_match cfg bucket codec now k h1 h2 h3 h4 h5

/-- Witness for C9 at a concrete unknown-verb key. -/
theorem unknown_verb_yields_empty_success_witness :
    loadParsed cfgAll bucketA codecU 0 keyBogus = (.empty, []) :=
  unknown_verb_yields_empty_success cfgAll bucketA codecU 0 keyBogus
    (by decide) (by decide) (by decide) (by decide) (by decide)

/-- C3: a decoded key whose (operation, targetName) pair has no matching
policy entry makes the loader panic with the unconfigured-path message — a
loud, unrecoverable failure distinct from an ordinary error return — and
the backend-call trace is empty: no backend operation is performed before
the panic. -/
theorem unconfigured_path_panics_without_backend_call (cfg : CachingBucketConfig)
    (bucket : Bucket ε) (codec : JsonCodec ε) (now : Int) (k : BucketCacheKey)
    (h : (k.verb = AttributesVerb ∧ cfg.findAttributesConfig k.name = none) ∨
         (k.verb = IterVerb ∧ cfg.findIterConfig k.name = none) ∨
         (k.verb = ContentVerb ∧ cfg.findGetConfig k.name = none) ∨
         (k.verb = ExistsVerb ∧ cfg.findExistConfig k.name = none) ∨
         (k.verb = SubrangeVerb ∧ cfg.findGetRangeConfig k.name = none)) :
    loadParsed cfg bucket codec now k = (.panicked unconfiguredMsg, []) := by
  rcases h with ⟨hv, hc⟩ | ⟨hv, hc⟩ | ⟨hv, hc⟩ | ⟨hv, hc⟩ | ⟨hv, hc⟩
  · rw [loadParsed_attributes_branch cfg bucket codec now k hv, hc]
  · rw [loadParsed_iter_branch cfg bucket codec now k hv, hc]
  · rw [loadParsed_content_branch cfg bucket codec now k hv, hc]
  · rw [loadParsed_exists_branch cfg bucket codec now k hv, hc]
  · rw [loadParsed_subrange_branch cfg bucket codec now k hv, hc]

/-- Witness for C3 at a concrete unconfigured attributes key. -/
theorem unconfigured_path_panics_without_backend_call_witness :
    loadParsed cfgNone bucketA codecU 0 keyAttrs = (.panicked unconfiguredMsg, []) :=
  unconfigured_path_panics_without_backend_call cfgNone bucketA codecU 0 keyAttrs
    (Or.inl ⟨rfl, rfl⟩)

/-- C2: an ExistsVerb load that succeeds against the backend writes exactly
the canonical text token true or false matching the backend's boolean, and
the envelope TTL is chosen solely by that boolean: the exists-TTL when the
object exists, the absent-TTL when it does not (so a backend returning true
always gets the exists-TTL, never the absent-TTL). -/
theorem exists_load_token_and_ttl (cfg : CachingBucketConfig) (bucket : Bucket ε)
    (codec : JsonCodec ε) (now : Int) (k : BucketCacheKey) (existsCfg : ExistsConfig) (b : Bool)
    (hverb : k.verb = ExistsVerb)
    (hcfg : cfg.findExistConfig k.name = some existsCfg)
    (hex : bucket.exists k.name = .ok b) :
    loadParsed cfg bucket codec now k
      = (.written (strBytes (if b then "true" else "false"))
            (now + (if b then existsCfg.existsTTL else existsCfg.doesntExistTTL)),
         [.existsCall k.name]) := by
  rw [loadParsed_exists_branch cfg bucket codec now k hverb, hcfg, hex]
  cases b <;> rfl

/-- Witness for C2 at a concrete key whose object exists. -/
theorem exists_load_token_and_ttl_witness :
    loadParsed cfgAll bucketA codecU 100 keyExists
      = (.written (strBytes (if true then "true" else "false"))
            (100 + (if true then existsCfg1.existsTTL else existsCfg1.doesntExistTTL)),
         [.existsCall keyExists.name]) :=
  exists_load_token_and_ttl cfgAll bucketA codecU 100 keyExists existsCfg1 true rfl rfl rfl

/-- C4: a SubrangeVerb load performs exactly one GetRange call, for the
range starting at start with length end − start, reads the returned stream
to completion (the streamed bytes become the payload unchanged), and stamps
the subrange TTL. -/
theorem subrange_load_exact_range (cfg : CachingBucketConfig) (bucket : Bucket ε)
    (codec : JsonCodec ε) (now : Int) (k : BucketCacheKey) (subrangeCfg : SubrangeConfig)
    (hverb : k.verb = SubrangeVerb)
    (hcfg : cfg.findGetRangeConfig k.name = some subrangeCfg) :
    loadParsed cfg bucket codec now k
      = (match bucket.getRange k.name k.start (k.«end» - k.start) with
         | .error e => .failed e
         | .ok (.error e) => .failed e
         | .ok (.ok b) => .written b (now + subrangeCfg.subrangeTTL),
         [.getRange k.name k.start (k.«end» - k.start)]) := by
  rw [loadParsed_subrange_branch cfg bucket codec now k hverb, hcfg]
  rcases bucket.getRange k.name k.start (k.«end» - k.start) with e | r
  · rfl
  · rcases r with e | b <;> rfl

/-- Witness for C4 at a concrete subrange key (bytes 100 to 200). -/
theorem subrange_load_exact_range_witness :
    loadParsed cfgAll bucketA codecU 0 keySubrange
      = (match bucketA.getRange keySubrange.name keySubrange.start
             (keySubrange.«end» - keySubrange.start) with
         | .error e => .failed e
         | .ok (.error e) => .failed e
         | .ok (.ok b) => .written b (0 + subrangeCfg1.subrangeTTL),
         [.getRange keySubrange.name keySubrange.start
            (keySubrange.«end» - keySubrange.start)]) :=
  subrange_load_exact_range cfgAll bucketA codecU 0 keySubrange subrangeCfg1 rfl rfl

/-- C6: an IterVerb load serializes exactly the sequence of names the
backend enumeration yielded, in the backend's order: the loader's
accumulator (appending each yielded name) equals the yielded sequence
itself, and the payload is its serialization, stamped with the iter TTL. -/
theorem iter_load_preserves_backend_order (cfg : CachingBucketConfig) (bucket : Bucket ε)
    (codec : JsonCodec ε) (now : Int) (k : BucketCacheKey) (iterCfg : IterConfig)
    (names : List String)
    (hverb : k.verb = IterVerb)
    (hcfg : cfg.findIterConfig k.name = some iterCfg)
    (hiter : bucket.iter k.name = .ok names) :
    loadParsed cfg bucket codec now k
      = (match codec.marshalList names with
         | .error e => .failed e
         | .ok encodedList => .written encodedList (now + iterCfg.ttl),
         [.iter k.name])
      ∧ names.foldl (fun acc s => acc ++ [s]) [] = names := by
  have hfold : names.foldl (fun acc s => acc ++ [s]) [] = names := by
    rw [foldl_append_singleton names []]; simp
  refine ⟨?_, hfold⟩
  rw [loadParsed_iter_branch cfg bucket codec now k hverb, hcfg, hiter]
  simp only [hfold]
  rcases codec.marshalList names with e | enc <;> rfl

/-- Witness for C6 at a concrete key whose enumeration is unsorted. -/
theorem iter_load_preserves_backend_order_witness :
    (loadParsed cfgAll bucketA codecU 0 keyIter
      = (match codecU.marshalList names1 with
         | .error e => .failed e
         | .ok encodedList => .written encodedList (0 + iterCfg1.ttl),
         [.iter keyIter.name]))
      ∧ names1.foldl (fun acc s => acc ++ [s]) [] = names1 :=
  iter_load_preserves_backend_order cfgAll bucketA codecU 0 keyIter iterCfg1 names1 rfl rfl rfl

/-- C5: whenever the dispatched backend operation fails — attributes, iter,
get, exists or get-range, including a failure while reading a returned
stream — the loader short-circuits and returns that failure as the load
error; the outcome is failed, never a written envelope with a partial or
empty payload. -/
theorem backend_failure_shortcircuits (cfg : CachingBucketConfig) (bucket : Bucket ε)
    (codec : JsonCodec ε) (now : Int) (k : BucketCacheKey) (e : ε)
    (h :
      (k.verb = AttributesVerb ∧ (∃ c, cfg.findAttributesConfig k.name = some c) ∧
        bucket.attributes k.name = .error e) ∨
      (k.verb = IterVerb ∧ (∃ c, cfg.findIterConfig k.name = some c) ∧
        bucket.iter k.name = .error e) ∨
      (k.verb = ContentVerb ∧ (∃ c, cfg.findGetConfig k.name = some c) ∧
        (bucket.get k.name = .error e ∨ bucket.get k.name = .ok (.error e))) ∨
      (k.verb = ExistsVerb ∧ (∃ c, cfg.findExistConfig k.name = some c) ∧
        bucket.exists k.name = .error e) ∨
      (k.verb = SubrangeVerb ∧ (∃ c, cfg.findGetRangeConfig k.name = some c) ∧
        (bucket.getRange k.name k.start (k.«end» - k.start) = .error e ∨
         bucket.getRange k.name k.start (k.«end» - k.start) = .ok (.error e)))) :
    (loadParsed cfg bucket codec now k).1 = .failed e := by
  rcases h with ⟨hv, ⟨c, hc⟩, hb⟩ | ⟨hv, ⟨c, hc⟩, hb⟩ | ⟨hv, ⟨c, hc⟩, hb⟩ |
    ⟨hv, ⟨c, hc⟩, hb⟩ | ⟨hv, ⟨c, hc⟩, hb⟩
  · rw [loadParsed_attributes_branch cfg bucket codec now k hv, hc, hb]
  · rw [loadParsed_iter_branch cfg bucket codec now k hv, hc, hb]
  · rcases hb with hb | hb <;>
      rw [loadParsed_content_branch cfg bucket codec now k hv, hc, hb]
  · rw [loadParsed_exists_branch cfg bucket codec now k hv, hc, hb]
  · rcases hb with hb | hb <;>
      rw [loadParsed_subrange_branch cfg bucket codec now k hv, hc, hb]

/-- Witness for C5 at a concrete key whose backend call fails. -/
theorem backend_failure_shortcircuits_witness :
    (loadParsed cfgAll bucketFail codecU 0 keyAttrs).1 = .failed () :=
  backend_failure_shortcircuits cfgAll bucketFail codecU 0 keyAttrs ()
    (Or.inl ⟨rfl, ⟨attrsCfg1, rfl⟩, rfl⟩)

/-- A key whose galaxy.Get or MarshalBinary fails leaves the accumulated
fetch map untouched by its own loop iteration. -/
lemma fetchStep_failed (galaxyGet : String → GetOutcome ε) (data : FetchMap) (k0 : String)
    (h : (∃ e, galaxyGet k0 = .getFailed e) ∨ (∃ e, galaxyGet k0 = .marshalFailed e)) :
    fetchStep galaxyGet data k0 = data := by
  rcases h with ⟨e, he⟩ | ⟨e, he⟩ <;> unfold fetchStep <;> rw [he]

/-- A key whose galaxy.Get or MarshalBinary fails is never inserted into
the fetch map, wherever it appears in the key list. -/
lemma fetch_foldl_failed_none (galaxyGet : String → GetOutcome ε) (k0 : String)
    (h : (∃ e, galaxyGet k0 = .getFailed e) ∨ (∃ e, galaxyGet k0 = .marshalFailed e)) :
    ∀ (keys : List String) (init : FetchMap), init k0 = none →
      (keys.foldl (fetchStep galaxyGet) init) k0 = none := by
  intro keys
  induction keys with
  | nil => intro init h0; simpa using h0
  | cons k ks ih =>
    intro init h0
    rw [List.foldl_cons]
    apply ih
    by_cases hk : k0 = k
    · subst hk; rw [fetchStep_failed galaxyGet init k0 h]; exact h0
    · cases hg : galaxyGet k with
      | getFailed e => unfold fetchStep; rw [hg]; exact h0
      | marshalFailed e => unfold fetchStep; rw [hg]; exact h0
      | retrieved b =>
        unfold fetchStep; rw [hg]
        by_cases hlen : 0 < b.length
        · simp [hlen, hk, h0]
        · simp [hlen, h0]

/-- C7: in a batch fetch, a key whose load fails (Get error or codec
retrieval error) is simply omitted from the returned map, and removing it
from the key list changes nothing for the other keys: the rest of the batch
is unaffected. -/
theorem fetch_failed_key_isolated (galaxyGet : String → GetOutcome ε) (k0 : String)
    (keys pre post : List String)
    (h : (∃ e, galaxyGet k0 = .getFailed e) ∨ (∃ e, galaxyGet k0 = .marshalFailed e)) :
    fetch galaxyGet keys k0 = none ∧
    fetch galaxyGet (pre ++ k0 :: post) = fetch galaxyGet (pre ++ post) := by
  constructor
  · exact fetch_foldl_failed_none galaxyGet k0 h keys (fun _ => none) rfl
  · unfold fetch
    rw [List.foldl_append, List.foldl_append, List.foldl_cons,
        fetchStep_failed galaxyGet _ k0 h]

/-- Fixture: galaxy.Get oracle failing exactly on the key named bad. -/
def galaxyGetW : String → GetOutcome Unit :=
  fun k => if k = "bad" then .getFailed () else .retrieved (strBytes k)

/-- Witness for C7 on a concrete batch containing a failing key. -/
theorem fetch_failed_key_isolated_witness :
    fetch galaxyGetW ["a", "bad", "b"] "bad" = none ∧
    fetch galaxyGetW (["a"] ++ "bad" :: ["b"]) = fetch galaxyGetW (["a"] ++ ["b"]) :=
  fetch_failed_key_isolated galaxyGetW "bad" ["a", "bad", "b"] ["a"] ["b"]
    (Or.inl ⟨(), rfl⟩)

/-- C8: a successful load stamps the envelope with expiry = now plus the
TTL the policy resolves for that key's own operation (the matched entry of
the verb's own lookup, with the exists verb's boolean choosing between its
two TTLs — never another verb's TTL); when every configured TTL is
strictly positive, the expiry is strictly in the future relative to
production time. -/
theorem load_expiry_now_plus_ttl (cfg : CachingBucketConfig) (bucket : Bucket ε)
    (codec : JsonCodec ε) (now : Int) (k : BucketCacheKey) (p : Bytes) (t : Int)
    (tr : List BackendCall)
    (hpos : allTTLsPos cfg)
    (h : loadParsed cfg bucket codec now k = (.written p t, tr)) :
    (∃ d, resolvedTTLFor cfg bucket k d ∧ t = now + d) ∧ now < t := by
  have key : ∃ d, resolvedTTLFor cfg bucket k d ∧ t = now + d ∧ d ∈ ttlMenu cfg k.name := by
    by_cases h1 : k.verb = AttributesVerb
    · rw [loadParsed_attributes_branch cfg bucket codec now k h1] at h
      rcases hA : cfg.findAttributesConfig k.name with _ | c <;> simp only [hA] at h
      · simp at h
      · rcases hB : bucket.attributes k.name with e | attrs <;> simp only [hB] at h
        · simp at h
        · rcases hC : codec.marshalAttrs attrs with e | fa <;> simp only [hC] at h
          · simp at h
          · injection h with hl hr
            injection hl with hp ht
            exact ⟨c.ttl, Or.inl ⟨h1, c, hA, rfl⟩, ht.symm, by simp [ttlMenu, hA]⟩
    by_cases h2 : k.verb = IterVerb
    · rw [loadParsed_iter_branch cfg bucket codec now k h2] at h
      rcases hA : cfg.findIterConfig k.name with _ | c <;> simp only [hA] at h
      · simp at h
      · rcases hB : bucket.iter k.name with e | names <;> simp only [hB] at h
        · simp at h
        · rcases hC : codec.marshalList (names.foldl (fun acc s => acc ++ [s]) []) with e | enc <;>
            simp only [hC] at h
          · simp at h
          · injection h with hl hr
            injection hl with hp ht
            exact ⟨c.ttl, Or.inr (Or.inl ⟨h2, c, hA, rfl⟩), ht.symm, by simp [ttlMenu, hA]⟩
    by_cases h3 : k.verb = ContentVerb
    · rw [loadParsed_content_branch cfg bucket codec now k h3] at h
      rcases hA : cfg.findGetConfig k.name with _ | c <;> simp only [hA] at h
      · simp at h
      · rcases hB : bucket.get k.name with e | readAll <;> simp only [hB] at h
        · simp at h
        · rcases readAll with e | b <;> simp only [] at h
          · simp at h
          · injection h with hl hr
            injection hl with hp ht
            exact ⟨c.contentTTL, Or.inr (Or.inr (Or.inl ⟨h3, c, hA, rfl⟩)), ht.symm,
              by simp [ttlMenu, hA]⟩
    by_cases h4 : k.verb = ExistsVerb
    · rw [loadParsed_exists_branch cfg bucket codec now k h4] at h
      rcases hA : cfg.findExistConfig k.name with _ | c <;> simp only [hA] at h
      · simp at h
      · rcases hB : bucket.exists k.name with e | ex <;> simp only [hB] at h
        · simp at h
        · cases ex
          · rw [if_neg Bool.false_ne_true] at h
            injection h with hl hr
            injection hl with hp ht
            exact ⟨c.doesntExistTTL,
              Or.inr (Or.inr (Or.inr (Or.inl ⟨h4, c, false, hA, hB, rfl⟩))), ht.symm,
              by simp [ttlMenu, hA]⟩
          · rw [if_pos rfl] at h
            injection h with hl hr
            injection hl with hp ht
            exact ⟨c.existsTTL,
              Or.inr (Or.inr (Or.inr (Or.inl ⟨h4, c, true, hA, hB, rfl⟩))), ht.symm,
              by simp [ttlMenu, hA]⟩
    by_cases h5 : k.verb = SubrangeVerb
    · rw [loadParsed_subrange_branch cfg bucket codec now k h5] at h
      rcases hA : cfg.findGetRangeConfig k.name with _ | c <;> simp only [hA] at h
      · simp at h
      · rcases hB : bucket.getRange k.name k.start (k.«end» - k.start) with e | readAll <;>
          simp only [hB] at h
        · simp at h
        · rcases readAll with e | b <;> simp only [] at h
          · simp at h
          · injection h with hl hr
            injection hl with hp ht
            exact ⟨c.subrangeTTL, Or.inr (Or.inr (Or.inr (Or.inr ⟨h5, c, hA, rfl⟩))), ht.symm,
              by simp [ttlMenu, hA]⟩
    · rw [loadParsed_no_verb_match cfg bucket codec now k h1 h2 h3 h4 h5] at h
      simp at h
  obtain ⟨d, hres, ht, hmem⟩ := key
  exact ⟨⟨d, hres, ht⟩, by have := hpos k.name d hmem; omega⟩

/-- Witness for C8 on a concrete successful exists load. -/
theorem load_expiry_now_plus_ttl_witness :
    (∃ d, resolvedTTLFor cfgAll bucketA keyExists d ∧ (700 : Int) = 100 + d) ∧
      (100 : Int) < 700 :=
  load_expiry_now_plus_ttl cfgAll bucketA codecU 100 keyExists (formatBool true) 700
    [.existsCall keyExists.name]
    (fun name d hd => by
      simp [ttlMenu, cfgAll, attrsCfg1, iterCfg1, getCfg1, existsCfg1, subrangeCfg1] at hd
      rcases hd with h | h | h | h | h | h <;> omega)
    (by rfl)
